import Mathlib

/-!
# Verification of the jobOctubus job aggregation & matching pipeline

Shallow embedding of `backend/services/job_search.py` (class `JobSearchService`),
`backend/schemas/schemas.py` (the pydantic `Job` / `JobSearchRequest` schemas) and
`backend/config.py` (the `Settings` class), together with proofs of the spec's
testable properties.

Modelling conventions:
* Python floats are modelled as `ℚ` (all arithmetic in the scorer is exact
  field arithmetic: set cardinalities, divisions and fixed weights).
* `datetime` values are modelled as `Int` timestamps (only their linear order
  and equality are used by the code).
* Python sets are modelled as deduplicated lists (`List.dedup`) or `Finset`s;
  only membership and cardinality are used by the code.
* Fallible operations (pydantic validation, attribute lookup on the settings
  object) are modelled with `Except Unit`.
* Python truthiness of strings/ints/lists is modelled explicitly
  (empty string / `0` / `None` are falsy).
-/

namespace JobOctubus

/-! ## String helpers (Python `str` operations used by the service) -/

/-- A word character in the sense of the regex `\w` (ASCII reading):
letters, digits and underscore. -/
def isWordChar (c : Char) : Bool := c.isAlphanum || c == '_'

/-- The maximal runs of characters satisfying `p`, left to right (`acc` is
the current run, reversed).  Structurally recursive so that concrete inputs
evaluate by kernel reduction. -/
def runsAux (p : Char → Bool) (acc : List Char) : List Char → List String
  | [] => if acc.isEmpty then [] else [acc.reverse.asString]
  | c :: cs =>
    if p c then runsAux p (c :: acc) cs
    else if acc.isEmpty then runsAux p [] cs
    else acc.reverse.asString :: runsAux p [] cs

/-- The maximal runs of characters of `s` satisfying `p`. -/
def splitRuns (p : Char → Bool) (s : String) : List String :=
  runsAux p [] s.data

/-- `re.findall(r'\b\w+\b', s)`: the maximal runs of word characters of `s`. -/
def tokenize (s : String) : List String :=
  splitRuns isWordChar s

/-- Python `str.split()` with no arguments: the maximal whitespace-free runs. -/
def pySplit (s : String) : List String :=
  splitRuns (fun c => !c.isWhitespace) s

/-- Python `str.lower()` (same as `String.toLower`: `Char.toLower` applied
to every character), written structurally. -/
def pyLower (s : String) : String := ⟨s.data.map Char.toLower⟩

/-- Python `str.strip()`: drop whitespace from both ends. -/
def pyTrim (s : String) : String :=
  ⟨((s.data.dropWhile Char.isWhitespace).reverse.dropWhile
      Char.isWhitespace).reverse⟩

/-- Python `' '.join(l)`. -/
def joinSpace : List String → String
  | [] => ""
  | [t] => t
  | t :: ts => t ++ " " ++ joinSpace ts

/-- Does the needle occur at the start of the haystack? -/
def strStarts : List Char → List Char → Bool
  | [], _ => true
  | _ :: _, [] => false
  | a :: asl, b :: bs => a == b && strStarts asl bs

/-- Does the needle occur somewhere in the haystack? -/
def strHas (needle : List Char) : List Char → Bool
  | [] => needle.isEmpty
  | b :: bs => strStarts needle (b :: bs) || strHas needle bs

/-- Python `needle in hay` for strings (substring containment). -/
def strContains (hay needle : String) : Bool :=
  strHas needle.toList hay.toList

/-! ## Data model

`Job` models the pydantic schema `schemas.Job` restricted to the fields the
job-search service reads or writes (the purely database-managed columns
`id`, `created_at` and the never-populated `deadline` are omitted; see
`validateJobSchema` for how their absence is accounted for). -/

structure Job where
  external_id : String
  title : String
  company : String
  location : String
  description : String
  requirements : String
  salary_range : Option String
  job_type : String
  remote_option : Bool
  posted_date : Int
  source : String
  url : String
  skills_required : List String
  experience_level : String
  match_score : Option ℚ
deriving DecidableEq, Repr

/-- The pydantic request schema `schemas.JobSearchRequest`.  `max_results`
is a plain Python `int` with default `50`: it is not constrained to be
nonnegative. -/
structure JobSearchRequest where
  query : String
  location : Option String := none
  remote_only : Bool := false
  experience_level : Option String := none
  job_type : Option String := none
  salary_min : Option Int := none
  max_results : Int := 50
deriving DecidableEq, Repr

/-- One entry of `cv_content['experience']`: only the keys `position` and
`description` are read by the scorer (missing keys read as `''`). -/
structure ExperienceEntry where
  position : String
  description : String
deriving DecidableEq, Repr

/-- The parts of `cv_content` read by `calculate_job_match_score`:
`cv_content.get('skills', [])` and `cv_content.get('experience', [])`. -/
structure CVContent where
  skills : List String
  experience : List ExperienceEntry
deriving DecidableEq, Repr

/-! ## Filter stage (`JobSearchService._filter_jobs`) -/

/-- Python truthiness of an `Optional[str]` criterion: `None` and the empty
string are falsy. -/
def truthy : Option String → Bool
  | none => false
  | some s => s ≠ ""

/-- The string value of a truthy `Optional[str]` criterion (the `getD ""`
default is never reached under a `truthy` guard). -/
def critStr (o : Option String) : String := o.getD ""

/-- `JobSearchService._filter_jobs`: the four conditionally applied list
comprehensions, in source order.  A criterion given as `None` or as the
empty string is falsy, so its `if` guard skips the comprehension. -/
def filter_jobs (jobs : List Job) (r : JobSearchRequest) : List Job :=
  let filtered := jobs
  let filtered :=
    if r.remote_only then filtered.filter (fun j => j.remote_option) else filtered
  let filtered :=
    if truthy r.experience_level then
      filtered.filter
        (fun j => pyLower j.experience_level == pyLower (critStr r.experience_level))
    else filtered
  let filtered :=
    if truthy r.job_type then
      filtered.filter (fun j => pyLower j.job_type == pyLower (critStr r.job_type))
    else filtered
  let filtered :=
    if truthy r.location then
      filtered.filter
        (fun j => strContains (pyLower j.location) (pyLower (critStr r.location)))
    else filtered
  filtered

/-- The conjunctive acceptance predicate described by the spec: remote-only,
case-insensitive experience-level equality, case-insensitive job-type
equality, case-insensitive location substring; absent (falsy) criteria are
no-ops. -/
def matchesCriteria (r : JobSearchRequest) (j : Job) : Bool :=
  (!r.remote_only || j.remote_option)
  && (!truthy r.experience_level ||
      pyLower j.experience_level == pyLower (critStr r.experience_level))
  && (!truthy r.job_type || pyLower j.job_type == pyLower (critStr r.job_type))
  && (!truthy r.location ||
      strContains (pyLower j.location) (pyLower (critStr r.location)))

/-! ## Sort stage (`JobSearchService._sort_jobs`)

The source is `sorted(jobs, key=lambda x: (x.match_score or 0, x.posted_date),
reverse=True)`.  Python's `sorted` is a stable sort; with `reverse=True` it
produces the descending lexicographic order on the key while equal-key
elements keep their original relative order.  A stable sort with respect to a
total preorder is unique, and `List.insertionSort` with the non-strict
"comes weakly before" relation below is such a stable sort (the theorems
about `sort_jobs` prove sortedness, permutation and stability, which
characterise the output of Python's `sorted`). -/

/-- `x.match_score or 0`: a missing (or zero) score is read as `0`. -/
def scoreOr0 (j : Job) : ℚ := j.match_score.getD 0

/-- The sort key `(x.match_score or 0, x.posted_date)`. -/
def jobKey (j : Job) : ℚ × Int := (scoreOr0 j, j.posted_date)

/-- `a` may appear (weakly) before `b` in the output: descending
lexicographic comparison of the keys. -/
def jobLe (a b : Job) : Prop :=
  scoreOr0 b < scoreOr0 a ∨
    (scoreOr0 a = scoreOr0 b ∧ b.posted_date ≤ a.posted_date)

instance : DecidableRel jobLe := fun a b => by
  unfold jobLe; infer_instance

instance : IsTotal Job jobLe where
  total a b := by
    unfold jobLe
    rcases lt_trichotomy (scoreOr0 a) (scoreOr0 b) with h | h | h
    · exact Or.inr (Or.inl h)
    · rcases le_total b.posted_date a.posted_date with h2 | h2
      · exact Or.inl (Or.inr ⟨h, h2⟩)
      · exact Or.inr (Or.inr ⟨h.symm, h2⟩)
    · exact Or.inl (Or.inl h)

instance : IsTrans Job jobLe where
  trans a b c hab hbc := by
    unfold jobLe at *
    rcases hab with h1 | ⟨h1, h1'⟩ <;> rcases hbc with h2 | ⟨h2, h2'⟩
    · exact Or.inl (h2.trans h1)
    · exact Or.inl (h2 ▸ h1)
    · exact Or.inl (h1 ▸ h2)
    · exact Or.inr ⟨h1.trans h2, h2'.trans h1'⟩

/-- `JobSearchService._sort_jobs`. -/
def sort_jobs (jobs : List Job) : List Job :=
  jobs.insertionSort jobLe

/-! ## Match scorer (`JobSearchService.calculate_job_match_score`, body)

The algorithm of lines 346–376 of `job_search.py`, as a function of the CV
content and the looked-up job.  (The enclosing method first evaluates
`self.db.query(Job)` where the name `Job` is unbound in the module — the
model class is imported as `JobModel` — so every real call raises
`NameError` before reaching this algorithm; see the results for claim C3.) -/

/-- `set(skill.lower() for skill in l)` as a deduplicated list. -/
def lowerDedup (l : List String) : List String :=
  (l.map pyLower).dedup

/-- The word set of `f"{a} {b}".lower()`. -/
def keywordSet (a b : String) : List String :=
  (tokenize (pyLower (a ++ " " ++ b))).dedup

/-- The scoring algorithm: skill overlap weighted 0.6, experience keyword
overlap weighted 0.4, times 100; returns 0 outright when the job declares
no required skills. -/
def calculate_job_match_score (cv : CVContent) (job : Job) : ℚ :=
  let cv_skills := lowerDedup cv.skills
  let job_skills := lowerDedup job.skills_required
  if job_skills.isEmpty then 0
  else
    let matching_skills := cv_skills.filter (fun s => s ∈ job_skills)
    let skill_score : ℚ := (matching_skills.length : ℚ) / (job_skills.length : ℚ)
    let job_keywords := keywordSet job.title job.description
    let experience_total : ℚ :=
      (cv.experience.map (fun e =>
        let exp_keywords := keywordSet e.position e.description
        if job_keywords.isEmpty then 0
        else ((job_keywords.filter (fun w => w ∈ exp_keywords)).length : ℚ) /
              (job_keywords.length : ℚ))).sum
    let experience_score : ℚ :=
      if cv.experience.isEmpty then experience_total
      else experience_total / (cv.experience.length : ℚ)
    (skill_score * 0.6 + experience_score * 0.4) * 100

/-- The spec's skill component, written with `Finset`s exactly as §4.5 words
it: `|candidate_skills ∩ job.skills_required| / |job.skills_required|`,
case-insensitive, `0` when the job declares no required skills. -/
def skillComponentSpec (cvSkills jobSkills : List String) : ℚ :=
  let c := (cvSkills.map pyLower).toFinset
  let j := (jobSkills.map pyLower).toFinset
  if j.card = 0 then 0 else ((c ∩ j).card : ℚ) / (j.card : ℚ)

/-- The spec's experience component: per entry, the fraction of job-text words
also present in the experience-text words; averaged over the entries
(`0` if there are none). -/
def expComponentSpec (exps : List ExperienceEntry) (job : Job) : ℚ :=
  let jw := (tokenize (pyLower (job.title ++ " " ++ job.description))).toFinset
  if exps = [] then 0
  else
    (exps.map (fun e =>
      let ew := (tokenize (pyLower (e.position ++ " " ++ e.description))).toFinset
      if jw.card = 0 then 0 else ((jw ∩ ew).card : ℚ) / (jw.card : ℚ))).sum /
      (exps.length : ℚ)

/-- The final score exactly as claim C2 words it:
`(skill_component × 0.6 + experience_component × 0.4) × 100`, with the skill
component `0` (but the experience component still counted) when the job
declares no required skills. -/
def matchScoreSpec (cv : CVContent) (job : Job) : ℚ :=
  (skillComponentSpec cv.skills job.skills_required * 0.6 +
    expComponentSpec cv.experience job * 0.4) * 100

/-! ## Source registry (`JobSearchService._get_available_sources` over
`config.Settings`)

`config.py`'s `Settings` class declares the fields `linkedin_api_key` and
`indeed_api_key` (both defaulting to `""`) but declares **no**
`enable_remoteok` / `enable_arbeitsagentur` / `enable_thelocal` /
`enable_linkedin` / `enable_indeed` fields, so on the pydantic settings
object those attributes do not exist regardless of the environment and the
`.env` file, and reading one raises `AttributeError`.  `SettingsObj` models
the settings object: an attribute is `some b` when it exists with value `b`
and `none` when it is undeclared; `getAttr` models Python attribute lookup. -/

structure SettingsObj where
  linkedin_api_key : String
  indeed_api_key : String
  enable_remoteok : Option Bool
  enable_arbeitsagentur : Option Bool
  enable_thelocal : Option Bool
  enable_linkedin : Option Bool
  enable_indeed : Option Bool
deriving DecidableEq, Repr

/-- Python attribute lookup: `AttributeError` when the attribute is absent. -/
def getAttr : Option Bool → Except Unit Bool
  | some b => .ok b
  | none => .error ()

/-- The settings object produced by `config.py` for any environment: the two
API-key fields are populated (from defaults or environment), the five
enable flags are undeclared. -/
def configSettings (lk ik : String) : SettingsObj :=
  { linkedin_api_key := lk, indeed_api_key := ik,
    enable_remoteok := none, enable_arbeitsagentur := none,
    enable_thelocal := none, enable_linkedin := none, enable_indeed := none }

/-- The decision logic of `_get_available_sources` given the values of the
five enable attributes: build the source list in source order, requiring for
LinkedIn/Indeed a truthy API key different from the placeholder sentinel. -/
def available_sources_logic (er ea et el ei : Bool) (lk ik : String) :
    List String :=
  let sources : List String := []
  let sources := if er then sources ++ ["remoteok"] else sources
  let sources := if ea then sources ++ ["arbeitsagentur"] else sources
  let sources := if et then sources ++ ["thelocal"] else sources
  let sources :=
    if el && (lk != "") && (lk != "your_linkedin_key_here")
    then sources ++ ["linkedin"] else sources
  let sources :=
    if ei && (ik != "") && (ik != "your_indeed_key_here")
    then sources ++ ["indeed"] else sources
  sources

/-- `JobSearchService._get_available_sources`: reads the five enable
attributes off the settings object in source order (each `if settings.enable_x`
evaluates the attribute), then produces the source list.  An undeclared
attribute raises, which the caller `search_jobs` turns into an empty result. -/
def get_available_sources (s : SettingsObj) : Except Unit (List String) := do
  let er ← getAttr s.enable_remoteok
  let ea ← getAttr s.enable_arbeitsagentur
  let et ← getAttr s.enable_thelocal
  let el ← getAttr s.enable_linkedin
  let ei ← getAttr s.enable_indeed
  pure (available_sources_logic er ea et el ei s.linkedin_api_key s.indeed_api_key)

/-! ## Aggregator (`JobSearchService.search_jobs`, lines 44–64)

The adapters run under `asyncio.gather(*search_tasks, return_exceptions=True)`;
each element of `results` is either a job list or a captured exception, which
we model as `Except Unit (List Job)`.  `search_jobs` is parameterised by that
`results` list (the fan-in point); the fan-out and the per-adapter behaviour
are modelled separately below. -/

/-- One iteration of lines 46–50: extend `jobs` when the gathered value is a
list, leave it unchanged when it is a captured exception. -/
def mergeStep (acc : List Job) (r : Except Unit (List Job)) : List Job :=
  match r with | .ok js => acc ++ js | .error _ => acc

/-- Lines 46–50: extend `jobs` with every list result, skip every captured
exception. -/
def mergeResults (results : List (Except Unit (List Job))) : List Job :=
  results.foldl mergeStep []

/-- Python list slicing `l[:n]` for an `int` bound `n`: a nonnegative bound
keeps the first `n` elements; a negative bound drops the last `|n|`. -/
def pyTake (n : Int) (l : List Job) : List Job :=
  if 0 ≤ n then l.take n.toNat else l.take (l.length - n.natAbs)

/-- A row of the `job_searches` table (`models.JobSearch`) as written by
`_store_search_history` (the `filters` JSON snapshot is the request itself). -/
structure SearchRecord where
  query : String
  location : Option String
  filters : JobSearchRequest
  results_count : Nat
  user_id : Int
deriving DecidableEq, Repr

/-- The relational store visible to the service: the `jobs` table (rows keyed
by `external_id`) and the append-only `job_searches` table. -/
structure SearchState where
  jobs : List Job
  searches : List SearchRecord
deriving DecidableEq, Repr

/-- `JobSearchService._store_search_history`: append one history row. -/
def store_search_history (r : JobSearchRequest) (results_count : Nat)
    (user_id : Int) (st : SearchState) : SearchState :=
  { st with
    searches := st.searches ++
      [{ query := r.query, location := r.location, filters := r,
         results_count := results_count, user_id := user_id }] }

/-- `JobSearchService.search_jobs` from the fan-in point on (lines 44–64):
merge the gathered adapter results, append a history row when `user_id` is
truthy, filter, sort and truncate to `max_results`.  The function is total:
no exception reaches the caller (adapter failures arrive as `.error` values,
and the method's outer `except` returns `[]` for anything else). -/
def search_jobs (r : JobSearchRequest) (user_id : Option Int)
    (st : SearchState) (results : List (Except Unit (List Job))) :
    SearchState × List Job :=
  let jobs := mergeResults results
  let st' :=
    match user_id with
    | some u => if u ≠ 0 then store_search_history r jobs.length u st else st
    | none => st
  let filtered_jobs := filter_jobs jobs r
  let sorted_jobs := sort_jobs filtered_jobs
  (st', pyTake r.max_results sorted_jobs)

/-! ## Pydantic construction of `schemas.Job`

`schemas.Job` requires (no default in `schemas.py`): `title`, `company`,
`location`, `description`, `requirements`, `job_type`, `source`, `url`,
`skills_required`, `experience_level`, `id`, `external_id`, `posted_date`,
`deadline`, `match_score`, `created_at`; only `salary_range` (default `None`)
and `remote_option` (default `False`) have defaults.  Constructing it with a
required field missing raises `ValidationError`.  `JobSchemaArgs` records
which keyword arguments a construction passes (`some` = passed); fields of
`schemas.Job` not carried by our `Job` structure (`id`, `created_at`,
`deadline` — all database-managed) are omitted; they are likewise never
passed by the Arbeitsagentur construction, which only makes its failure
earlier. -/

structure JobSchemaArgs where
  external_id : Option String := none
  title : Option String := none
  company : Option String := none
  location : Option String := none
  description : Option String := none
  requirements : Option String := none
  salary_range : Option (Option String) := none
  job_type : Option String := none
  remote_option : Option Bool := none
  posted_date : Option Int := none
  source : Option String := none
  url : Option String := none
  skills_required : Option (List String) := none
  experience_level : Option String := none
  match_score : Option (Option ℚ) := none
deriving DecidableEq, Repr

/-- A required pydantic field: missing ⇒ `ValidationError`. -/
def requiredField {α : Type} : Option α → Except Unit α
  | some a => .ok a
  | none => .error ()

/-- Pydantic validation of a `schemas.Job` construction. -/
def validateJobSchema (a : JobSchemaArgs) : Except Unit Job := do
  let external_id ← requiredField a.external_id
  let title ← requiredField a.title
  let company ← requiredField a.company
  let location ← requiredField a.location
  let description ← requiredField a.description
  let requirements ← requiredField a.requirements
  let job_type ← requiredField a.job_type
  let posted_date ← requiredField a.posted_date
  let source ← requiredField a.source
  let url ← requiredField a.url
  let skills_required ← requiredField a.skills_required
  let experience_level ← requiredField a.experience_level
  let match_score ← requiredField a.match_score
  pure { external_id, title, company, location, description, requirements,
         salary_range := a.salary_range.getD none,
         job_type, remote_option := a.remote_option.getD false,
         posted_date, source, url, skills_required, experience_level,
         match_score }

/-! ## Arbeitsagentur adapter (`JobSearchService._search_arbeitsagentur`)

The decoded response items (`data['stellenangebote']`), restricted to the
keys the loop reads. -/

structure BAItem where
  hashId : String
  beruf : String
  arbeitgeber : String
  ort : String
  stellenbeschreibung : String
deriving DecidableEq, Repr

/-- The keyword arguments of the `JobSchema(...)` construction at lines
128–141: twelve fields are passed; `requirements` and `match_score` (and the
unmodelled `id`, `deadline`, `created_at`) are not. -/
def ba_job_args (now : Int) (d : BAItem) : JobSchemaArgs :=
  { external_id := some ("ba_" ++ d.hashId),
    title := some d.beruf,
    company := some d.arbeitgeber,
    location := some d.ort,
    description := some d.stellenbeschreibung,
    job_type := some "Full-time",
    remote_option := some false,
    posted_date := some now,
    source := some "arbeitsagentur",
    url := some ("https://www.arbeitsagentur.de/jobsuche/jobdetail/" ++ d.hashId),
    skills_required := some [],
    experience_level := some "Mid-level" }

/-- The parse loop of `_search_arbeitsagentur` on an already-decoded
response: construct a schema object per item, collecting them; the first
`ValidationError` aborts the loop (there is no per-item `try`). -/
def baParse (now : Int) : List BAItem → Except Unit (List Job)
  | [] => .ok []
  | d :: rest => do
    let j ← validateJobSchema (ba_job_args now d)
    let js ← baParse now rest
    pure (j :: js)

/-- `_search_arbeitsagentur` after a successful fetch: any exception inside
the `async with` block — including the `ValidationError` raised by the schema
construction — is caught by the method's `except`, which returns `[]`. -/
def search_arbeitsagentur (now : Int) (items : List BAItem) : List Job :=
  match baParse now items with
  | .ok js => js
  | .error _ => []

/-- `JobSearchService._search_thelocal`: the body is literally
`return []` (no public API is available). -/
def search_thelocal (_r : JobSearchRequest) : List Job := []

/-! ## RemoteOK adapter (`JobSearchService._search_remoteok`)

This adapter is the one that persists: for each accepted feed item it either
reuses the stored row with the same `external_id` or inserts a new row. -/

/-- After a `<`, try to match the rest of `re`'s pattern `[^<]+?>`:
at least one non-`<` character, minimally extended, then `>`.  Returns the
characters after the match.  `tagEnd` scans for the closing `>` after the
first consumed character. -/
def tagEnd : List Char → Option (List Char)
  | [] => none
  | c :: cs => if c = '>' then some cs else if c = '<' then none else tagEnd cs

/-- See `tagEnd`: the first consumed character must itself be non-`<`. -/
def tryTag : List Char → Option (List Char)
  | [] => none
  | c :: cs => if c = '<' then none else tagEnd cs

theorem tagEnd_length_lt : ∀ cs rest, tagEnd cs = some rest →
    rest.length < cs.length := by
  intro cs
  induction cs with
  | nil => intro rest h; simp [tagEnd] at h
  | cons c cs ih =>
    intro rest h
    by_cases h1 : c = '>'
    · simp [tagEnd, h1] at h
      simp [← h]
    · by_cases h2 : c = '<'
      · simp [tagEnd, h1, h2] at h
      · simp [tagEnd, h1, h2] at h
        have := ih rest h
        simp
        omega

theorem tryTag_length_lt : ∀ cs rest, tryTag cs = some rest →
    rest.length < cs.length := by
  intro cs rest h
  match cs with
  | [] => simp [tryTag] at h
  | c :: cs' =>
    by_cases h1 : c = '<'
    · simp [tryTag, h1] at h
    · simp [tryTag, h1] at h
      have := tagEnd_length_lt cs' rest h
      simp
      omega

/-- `re.sub('<[^<]+?>', '', s)` on the character list: at each `<`, remove
the minimal `<[^<]+?>` match if one starts here, otherwise keep the `<` and
continue; other characters are kept. -/
def stripTagsAux (cs : List Char) : List Char :=
  match h : cs with
  | [] => []
  | c :: rest =>
    if hc : c = '<' then
      match ht : tryTag rest with
      | some rest' => stripTagsAux rest'
      | none => c :: stripTagsAux rest
    else c :: stripTagsAux rest
termination_by cs.length
decreasing_by
  · have := tryTag_length_lt rest rest' ht
    simp [h]; omega
  · simp [h]
  · simp [h]

/-- `re.sub('<[^<]+?>', '', description)`. -/
def stripTags (s : String) : String :=
  (stripTagsAux s.toList).asString

/-- One decoded item of the RemoteOK feed, restricted to the keys the loop
reads.  `some`/`none` model key presence (`job_data.get(k, d)` uses the
default only for a missing key).  A feed element that is not a dict behaves
exactly like one with no truthy `position`, so it is modelled by
`position := none`. -/
structure RemoteItem where
  id : Option Nat := none
  position : Option String := none
  company : Option String := none
  description : Option String := none
  tags : Option (List String) := none
  location : Option String := none
  epoch : Option Int := none
  apply_url : Option String := none
  url : Option String := none
  salary_min : Option Int := none
  salary_max : Option Int := none
deriving DecidableEq, Repr

/-- `search_request.query.lower().split() if search_request.query else []`. -/
def remoteKeywords (r : JobSearchRequest) : List String :=
  if r.query ≠ "" then pySplit (pyLower r.query) else []

/-- Lines 193–196: the lowered job text and the any-keyword substring test. -/
def keywordMatch (keywords : List String) (d : RemoteItem) : Bool :=
  let job_text :=
    pyLower ((d.position.getD "") ++ " " ++ (d.company.getD "") ++ " " ++
      (d.description.getD "") ++ " " ++ joinSpace (d.tags.getD []))
  keywords.any (fun k => strContains job_text k)

/-- `f"remote_{job_data.get('id', count)}"`: the namespaced external id; a
missing feed id falls back to the current accepted-count. -/
def remoteEid (d : RemoteItem) (count : Nat) : String :=
  "remote_" ++ (match d.id with
    | some n => toString n
    | none => toString count)

/-- Lines 214–242: build the new `JobModel` row for an item whose
`external_id` is not yet stored. -/
def buildRemoteJob (now : Int) (d : RemoteItem) (eid : String) : Job :=
  let description0 := d.description.getD ""
  let description :=
    if description0 ≠ "" then ((stripTags description0).toList.take 1000).asString
    else description0
  { external_id := eid,
    title := d.position.getD "Remote Position",
    company := d.company.getD "Unknown Company",
    location := d.location.getD "Remote",
    description := if description ≠ "" then description else "No description available",
    requirements := "",
    job_type := "Full-time",
    remote_option := true,
    posted_date := match d.epoch with
      | some e => if e ≠ 0 then e else now
      | none => now,
    source := "remoteok",
    url := (let au := d.apply_url.getD ""
            if au ≠ "" then au else d.url.getD ""),
    skills_required := match d.tags with
      | some ts => ts.take 10
      | none => [],
    experience_level := "Mid-level",
    salary_range := match d.salary_min, d.salary_max with
      | some a, some b =>
          if a ≠ 0 ∧ b ≠ 0
          then some ("$" ++ toString a ++ "-$" ++ toString b) else none
      | _, _ => none,
    match_score := none }

/-- The parse loop of `_search_remoteok` (lines 183–257) over the decoded
feed, threading the `jobs` table and the accepted-count.  In source order per
item: skip non-jobs (no truthy `position`), skip keyword misses, `break` once
`count >= max_results`, then either reuse the stored row with this
`external_id` (`JobSchema.from_orm(existing)`) or insert a new row.  Returns
the final table and the returned job list. -/
def remoteokLoop (r : JobSearchRequest) (now : Int) :
    List RemoteItem → List Job → Nat → List Job × List Job
  | [], db, _ => (db, [])
  | d :: rest, db, count =>
    if d.position.getD "" = "" then remoteokLoop r now rest db count
    else
      let keywords := remoteKeywords r
      if keywords ≠ [] ∧ ¬ keywordMatch keywords d then
        remoteokLoop r now rest db count
      else if r.max_results ≤ (count : Int) then (db, [])
      else
        let eid := remoteEid d count
        match db.find? (fun j => j.external_id == eid) with
        | some existing =>
          let rec' := remoteokLoop r now rest db (count + 1)
          (rec'.1, existing :: rec'.2)
        | none =>
          let j := buildRemoteJob now d eid
          let rec' := remoteokLoop r now rest (db ++ [j]) (count + 1)
          (rec'.1, j :: rec'.2)

/-- `JobSearchService._search_remoteok` after a successful fetch of `items`:
an empty or whitespace-only query skips the network call and returns `[]`
(leaving the table untouched); otherwise run the parse loop from count 0. -/
def search_remoteok (r : JobSearchRequest) (now : Int) (db : List Job)
    (items : List RemoteItem) : List Job × List Job :=
  if pyTrim r.query = "" then (db, [])
  else remoteokLoop r now items db 0

/-! ## Sample values used by witnesses and counterexamples -/

/-- A remote job as produced by the RemoteOK adapter. -/
def jobA : Job :=
  { external_id := "remote_1", title := "A", company := "CA", location := "Remote",
    description := "d", requirements := "", salary_range := none,
    job_type := "Full-time", remote_option := true, posted_date := 2,
    source := "remoteok", url := "", skills_required := [],
    experience_level := "Mid-level", match_score := none }

/-- A second sample job with an older posting date. -/
def jobB : Job :=
  { jobA with external_id := "remote_2", title := "B", posted_date := 1 }

/-- A request with only a query, all other criteria at their defaults. -/
def reqQ : JobSearchRequest := { query := "x" }

/-! ## Lemmas about the aggregator -/

theorem mergeResults_nil : mergeResults [] = [] := rfl

theorem mergeStep_acc (acc : List Job) (r : Except Unit (List Job)) :
    mergeStep acc r = acc ++ mergeStep [] r := by
  cases r <;> simp [mergeStep]

theorem foldl_mergeStep (l : List (Except Unit (List Job))) :
    ∀ acc : List Job, l.foldl mergeStep acc = acc ++ l.foldl mergeStep [] := by
  induction l with
  | nil => simp
  | cons r rest ih =>
    intro acc
    rw [List.foldl_cons, List.foldl_cons, ih (mergeStep acc r),
      ih (mergeStep [] r), mergeStep_acc acc r, List.append_assoc]

theorem mergeResults_cons (r : Except Unit (List Job))
    (l : List (Except Unit (List Job))) :
    mergeResults (r :: l) = mergeStep [] r ++ mergeResults l := by
  simp only [mergeResults, List.foldl_cons]
  exact foldl_mergeStep l (mergeStep [] r)

theorem mergeResults_all_errors (l : List (Except Unit (List Job)))
    (h : ∀ x ∈ l, x = .error ()) : mergeResults l = [] := by
  induction l with
  | nil => rfl
  | cons r rest ih =>
    rw [mergeResults_cons, h r (by simp)]
    exact ih (fun x hx => h x (by simp [hx]))

theorem sort_jobs_nil : sort_jobs [] = [] := rfl

theorem pyTake_nil (n : Int) : pyTake n [] = [] := by
  unfold pyTake; split_ifs <;> simp

theorem pyTake_length_le (n : Int) (hn : 0 ≤ n) (l : List Job) :
    ((pyTake n l).length : Int) ≤ n := by
  unfold pyTake
  rw [if_pos hn]
  have h1 : (l.take n.toNat).length ≤ n.toNat := by
    simp [List.length_take]
  calc ((l.take n.toNat).length : Int) ≤ (n.toNat : Int) := by exact_mod_cast h1
    _ = n := Int.toNat_of_nonneg hn

theorem pyTake_length_le_length (n : Int) (l : List Job) :
    (pyTake n l).length ≤ l.length := by
  unfold pyTake; split_ifs <;> simp [List.length_take]

theorem sort_jobs_length (l : List Job) :
    (sort_jobs l).length = l.length :=
  (List.perm_insertionSort jobLe l).length_eq

theorem guarded_filter_eq (c : Bool) (p : Job → Bool) (m : List Job) :
    (if c = true then m.filter p else m) = m.filter (fun j => !c || p j) := by
  cases c <;> simp

theorem filter_jobs_eq_filter (l : List Job) (r : JobSearchRequest) :
    filter_jobs l r = l.filter (matchesCriteria r) := by
  simp only [filter_jobs, matchesCriteria]
  rw [guarded_filter_eq, guarded_filter_eq, guarded_filter_eq,
    guarded_filter_eq]
  simp only [List.filter_filter]
  refine List.filter_congr fun j hj => ?_
  simp only [matchesCriteria]
  cases hA : (!r.remote_only || j.remote_option) <;>
    cases hB : (!truthy r.experience_level ||
      pyLower j.experience_level == pyLower (critStr r.experience_level)) <;>
    cases hC : (!truthy r.job_type ||
      pyLower j.job_type == pyLower (critStr r.job_type)) <;>
    cases hD : (!truthy r.location ||
      strContains (pyLower j.location) (pyLower (critStr r.location))) <;>
    simp [hA, hB, hC, hD]

theorem filter_jobs_sublist (l : List Job) (r : JobSearchRequest) :
    List.Sublist (filter_jobs l r) l := by
  rw [filter_jobs_eq_filter]
  exact List.filter_sublist l

theorem filter_jobs_nil (r : JobSearchRequest) : filter_jobs [] r = [] :=
  List.sublist_nil.mp (filter_jobs_sublist [] r)

/-- C1: if, in one gather round, every adapter but one raises or times out
and the remaining adapter returns the list `js`, then the merged aggregate
(the `jobs` list of `search_jobs` before filtering) is exactly `js`, and the
value returned to the caller is the filtered/sorted/truncated image of `js`
alone — no exception propagates (the model of `search_jobs` is a total
function; gathered failures arrive as `.error` values and contribute
nothing). -/
theorem search_jobs_partial_failure
    (a b : List (Except Unit (List Job))) (js : List Job)
    (ha : ∀ x ∈ a, x = .error ()) (hb : ∀ x ∈ b, x = .error ()) :
    mergeResults (a ++ .ok js :: b) = js ∧
    ∀ (r : JobSearchRequest) (uid : Option Int) (st : SearchState),
      (search_jobs r uid st (a ++ .ok js :: b)).2 =
        pyTake r.max_results (sort_jobs (filter_jobs js r)) := by
  have hmerge : mergeResults (a ++ .ok js :: b) = js := by
    induction a with
    | nil =>
      rw [List.nil_append, mergeResults_cons, mergeResults_all_errors b hb]
      simp [mergeStep]
    | cons x rest ih =>
      rw [List.cons_append, mergeResults_cons, ha x (by simp)]
      exact ih (fun y hy => ha y (by simp [hy]))
  exact ⟨hmerge, fun r uid st => by simp only [search_jobs]; rw [hmerge]⟩

/-- Witness for C1 at a concrete input: two failed adapters and one
returning a single job. -/
theorem search_jobs_partial_failure_witness :
    mergeResults [.error (), .ok [jobA], .error ()] = [jobA] ∧
    (search_jobs reqQ none ⟨[], []⟩ [.error (), .ok [jobA], .error ()]).2 =
      pyTake reqQ.max_results (sort_jobs (filter_jobs [jobA] reqQ)) := by
  have h := search_jobs_partial_failure [.error ()] [.error ()] [jobA]
    (by intro x hx; simpa using hx) (by intro x hx; simpa using hx)
  exact ⟨h.1, h.2 reqQ none ⟨[], []⟩⟩

/-- C7: if every gathered adapter outcome is a failure — which also covers
the case of no enabled source at all (`results = []`) — the search returns
the empty list, not an error: the model is a total function and the caller
cannot distinguish this return value from "no jobs found". -/
theorem search_jobs_total_failure
    (r : JobSearchRequest) (uid : Option Int) (st : SearchState)
    (results : List (Except Unit (List Job)))
    (h : ∀ x ∈ results, x = .error ()) :
    (search_jobs r uid st results).2 = [] := by
  simp only [search_jobs]
  rw [mergeResults_all_errors results h, filter_jobs_nil, sort_jobs_nil,
    pyTake_nil]

/-- Witness for C7 at a concrete input: three failed adapters. -/
theorem search_jobs_total_failure_witness :
    (search_jobs reqQ (some 1) ⟨[], []⟩ [.error (), .error (), .error ()]).2
      = [] :=
  search_jobs_total_failure reqQ (some 1) ⟨[], []⟩ _
    (by intro x hx; simpa using hx)

/-- C9 (counterexample): `max_results` is an unconstrained Python `int`; for
the request `max_results = -1` the slice `sorted_jobs[:-1]` drops only the
last element, so a search over two merged postings returns one posting —
and `1 ≤ -1` is false, contradicting "the number of postings returned never
exceeds the caller-specified max_results". -/
theorem search_jobs_negative_max_counterexample :
    (search_jobs { query := "x", max_results := -1 } none ⟨[], []⟩
        [.ok [jobA, jobB]]).2.length = 1 ∧
    ¬ (((search_jobs { query := "x", max_results := -1 } none ⟨[], []⟩
        [.ok [jobA, jobB]]).2.length : Int) ≤ -1) := by
  constructor
  · rfl
  · intro h
    have : (search_jobs { query := "x", max_results := -1 } none ⟨[], []⟩
        [.ok [jobA, jobB]]).2.length = 1 := rfl
    rw [this] at h
    omega

/-- C9 (amended): for every request with nonnegative `max_results`, the
number of postings returned is at most `max_results`, and the returned list
is the `max_results`-truncation of the sorted filtered merge — i.e. the cap
is applied only after the filter and sort stages, never to the merged list
feeding deduplication and history recording. -/
theorem search_jobs_cap
    (r : JobSearchRequest) (uid : Option Int) (st : SearchState)
    (results : List (Except Unit (List Job))) (hn : 0 ≤ r.max_results) :
    ((search_jobs r uid st results).2.length : Int) ≤ r.max_results ∧
    (search_jobs r uid st results).2 =
      (sort_jobs (filter_jobs (mergeResults results) r)).take
        r.max_results.toNat := by
  constructor
  · exact pyTake_length_le r.max_results hn _
  · simp only [search_jobs, pyTake]
    rw [if_pos hn]

/-- Witness for C9's amended theorem at a concrete input:
`max_results = 1` over two merged postings. -/
theorem search_jobs_cap_witness :
    (((search_jobs { query := "x", max_results := 1 } none ⟨[], []⟩
        [.ok [jobA, jobB]]).2.length : Int) ≤ 1) ∧
    (search_jobs { query := "x", max_results := 1 } none ⟨[], []⟩
        [.ok [jobA, jobB]]).2 =
      (sort_jobs (filter_jobs
        (mergeResults [.ok [jobA, jobB]]) { query := "x", max_results := 1 })).take 1 :=
  search_jobs_cap { query := "x", max_results := 1 } none ⟨[], []⟩
    [.ok [jobA, jobB]] (by norm_num)

/-- C10: when the search runs for an identified user (a truthy `user_id`,
i.e. `u ≠ 0` — Python's `if user_id:`), exactly one `SearchQuery` row is
appended, and its `results_count` is the length of the merged pre-filter
job list — which therefore always bounds (and can exceed) the number of
postings actually returned after filtering and truncation. -/
theorem search_jobs_history
    (r : JobSearchRequest) (u : Int) (st : SearchState)
    (results : List (Except Unit (List Job))) (hu : u ≠ 0) :
    (search_jobs r (some u) st results).1.searches =
      st.searches ++
        [{ query := r.query, location := r.location, filters := r,
           results_count := (mergeResults results).length, user_id := u }] ∧
    (search_jobs r (some u) st results).2.length ≤
      (mergeResults results).length := by
  constructor
  · simp only [search_jobs, store_search_history]
    simp [hu]
  · simp only [search_jobs]
    calc (pyTake r.max_results (sort_jobs (filter_jobs (mergeResults results) r))).length
        ≤ (sort_jobs (filter_jobs (mergeResults results) r)).length :=
          pyTake_length_le_length _ _
      _ = (filter_jobs (mergeResults results) r).length := sort_jobs_length _
      _ ≤ (mergeResults results).length :=
          (filter_jobs_sublist _ _).length_le

/-- Witness for C10 at a concrete input: two merged postings,
`max_results = 1`, user 1. -/
theorem search_jobs_history_witness :
    (search_jobs { query := "x", max_results := 1 } (some 1) ⟨[], []⟩
        [.ok [jobA, jobB]]).1.searches =
      [] ++ [{ query := "x", location := none,
               filters := { query := "x", max_results := 1 },
               results_count := (mergeResults [.ok [jobA, jobB]]).length,
               user_id := 1 }] ∧
    (search_jobs { query := "x", max_results := 1 } (some 1) ⟨[], []⟩
        [.ok [jobA, jobB]]).2.length ≤
      (mergeResults [.ok [jobA, jobB]]).length :=
  search_jobs_history { query := "x", max_results := 1 } 1 ⟨[], []⟩
    [.ok [jobA, jobB]] (by norm_num)

/-! ## Filter stage: C6 -/

/-- C6: the filter stage is idempotent — `filter(filter(L, C), C) =
filter(L, C)` — and is exactly the single-pass `List.filter` by the
conjunctive criteria predicate (remote-only, case-insensitive
experience-level and job-type equality, case-insensitive location
substring), with absent (falsy) criteria acting as no-ops. -/
theorem filter_jobs_idempotent :
    ∀ (l : List Job) (r : JobSearchRequest),
      filter_jobs (filter_jobs l r) r = filter_jobs l r ∧
      filter_jobs l r = l.filter (matchesCriteria r) := by
  intro l r
  refine ⟨?_, filter_jobs_eq_filter l r⟩
  rw [filter_jobs_eq_filter, filter_jobs_eq_filter, List.filter_filter]
  refine List.filter_congr fun j hj => ?_
  cases h : matchesCriteria r j <;> simp [h]

/-! ## Sort stage: C4 -/

theorem jobLe_of_key_eq {a b : Job} (h : jobKey a = jobKey b) : jobLe a b := by
  unfold jobKey at h
  rw [Prod.mk.injEq] at h
  exact Or.inr ⟨h.1, le_of_eq h.2.symm⟩

theorem key_ne_of_not_jobLe {a b : Job} (h : ¬ jobLe a b) :
    jobKey a ≠ jobKey b :=
  fun he => h (jobLe_of_key_eq he)

theorem filter_key_orderedInsert (a : Job) (l : List Job) (k : ℚ × Int) :
    (l.orderedInsert jobLe a).filter (fun j => jobKey j == k) =
      if jobKey a = k then a :: l.filter (fun j => jobKey j == k)
      else l.filter (fun j => jobKey j == k) := by
  induction l with
  | nil =>
    simp only [List.orderedInsert]
    by_cases hk : jobKey a = k <;> simp [hk]
  | cons b l ih =>
    simp only [List.orderedInsert]
    by_cases hr : jobLe a b
    · rw [if_pos hr]
      by_cases hk : jobKey a = k <;> simp [List.filter_cons, hk]
    · rw [if_neg hr]
      have hne : jobKey a ≠ jobKey b := key_ne_of_not_jobLe hr
      by_cases hk : jobKey a = k
      · have hbk : jobKey b ≠ k := fun hbk => hne (hk.trans hbk.symm)
        simp [List.filter_cons, hbk, ih, hk]
      · by_cases hbk : jobKey b = k <;> simp [List.filter_cons, hbk, ih, hk]

theorem filter_key_insertionSort (l : List Job) (k : ℚ × Int) :
    (sort_jobs l).filter (fun j => jobKey j == k) =
      l.filter (fun j => jobKey j == k) := by
  unfold sort_jobs
  induction l with
  | nil => rfl
  | cons a l ih =>
    simp only [List.insertionSort]
    rw [filter_key_orderedInsert]
    by_cases hk : jobKey a = k <;> simp [List.filter_cons, hk, ih]

/-- C4: the sort stage orders the postings so that every earlier posting has
a strictly larger effective score (`match_score or 0`), or an equal score
and a no-smaller posted date (`List.Sorted jobLe`, the descending
lexicographic order on the key); it permutes its input; and it is stable:
for every key value the sublist of postings carrying that exact
(score, posted_date) key is unchanged, i.e. equal-key postings keep their
relative input order. -/
theorem sort_jobs_spec :
    ∀ l : List Job,
      List.Sorted jobLe (sort_jobs l) ∧
      (sort_jobs l).Perm l ∧
      ∀ k : ℚ × Int,
        (sort_jobs l).filter (fun j => jobKey j == k) =
          l.filter (fun j => jobKey j == k) :=
  fun l => ⟨List.sorted_insertionSort jobLe l, List.perm_insertionSort jobLe l,
    fun k => filter_key_insertionSort l k⟩

/-! ## Match scorer: C2 and C3 -/

theorem dedup_filter_length (A B : List String) :
    ((A.dedup).filter (fun s => s ∈ B.dedup)).length =
      (A.toFinset ∩ B.toFinset).card := by
  rw [← List.toFinset_card_of_nodup ((A.nodup_dedup).filter _)]
  congr 1
  ext x
  simp [List.mem_filter, List.mem_dedup]

/-- C2 (amended): the scorer returns
`(skill_component × 0.6 + experience_component × 0.4) × 100` with the
components exactly as the spec defines them — except that when the job
declares no required skills the function returns `0` outright (the
experience component is discarded, not weighted in). -/
theorem calculate_job_match_score_eq_spec :
    ∀ (cv : CVContent) (job : Job),
      calculate_job_match_score cv job =
        if (job.skills_required.map pyLower).toFinset = ∅ then 0
        else matchScoreSpec cv job := by
  intro cv job
  by_cases hB : job.skills_required = []
  · simp [calculate_job_match_score, lowerDedup, hB]
  · simp only [calculate_job_match_score, matchScoreSpec, skillComponentSpec,
      expComponentSpec, lowerDedup, keywordSet, ← dedup_filter_length,
      List.card_toFinset, List.isEmpty_iff, List.length_eq_zero,
      List.dedup_eq_nil, List.map_eq_nil_iff, List.toFinset_eq_empty_iff, hB]
    by_cases hE : cv.experience = []
    · simp only [hE, List.map_nil, List.sum_nil, if_pos rfl]
      simp
    · simp only [if_false, if_neg hE]

/-- The CV used by the C2 counterexample: no skills, one experience entry
whose text coincides with the job text. -/
def cvX : CVContent :=
  { skills := [], experience := [{ position := "dev", description := "" }] }

/-- The job used by the C2 counterexample: it declares no required skills. -/
def jobX : Job :=
  { external_id := "x", title := "dev", company := "", location := "",
    description := "", requirements := "", salary_range := none,
    job_type := "Full-time", remote_option := false, posted_date := 0,
    source := "arbeitsagentur", url := "", skills_required := [],
    experience_level := "Mid-level", match_score := none }

/-- C2 (counterexample): for a job with no required skills and a candidate
with full experience overlap, the code returns `0`, whereas the claimed
formula `(skill × 0.6 + experience × 0.4) × 100` gives `40` (the experience
component is `1`): the claim's "a job with no required skills but positive
experience overlap receives the experience-weighted score" is false on the
code, which returns `0.0` before looking at experience. -/
theorem calculate_no_required_skills_counterexample :
    calculate_job_match_score cvX jobX = 0 ∧
    expComponentSpec cvX.experience jobX = 1 ∧
    matchScoreSpec cvX jobX = 40 := by
  have htok : tokenize (pyLower ("dev" ++ " " ++ "")) = ["dev"] := by decide
  have hc1 : ((["dev"] : List String).toFinset).card = 1 := by decide
  have hc2 : ((["dev"] : List String).toFinset ∩
      (["dev"] : List String).toFinset).card = 1 := by decide
  have hexp : expComponentSpec cvX.experience jobX = 1 := by
    simp only [expComponentSpec, cvX, jobX]
    rw [if_neg (by simp)]
    simp only [List.map_cons, List.map_nil, List.sum_cons, List.sum_nil,
      List.length_cons, List.length_nil, htok, hc1, hc2]
    norm_num
  have hskill : skillComponentSpec cvX.skills jobX.skills_required = 0 := by
    simp [skillComponentSpec, cvX, jobX]
  refine ⟨by decide, hexp, ?_⟩
  rw [matchScoreSpec, hskill, hexp]
  norm_num

theorem avg_bounds {α : Type} (exps : List α) (f : α → ℚ)
    (h0 : ∀ e, 0 ≤ f e) (h1 : ∀ e, f e ≤ 1) :
    0 ≤ (if exps.isEmpty then (exps.map f).sum
         else (exps.map f).sum / (exps.length : ℚ)) ∧
    (if exps.isEmpty then (exps.map f).sum
     else (exps.map f).sum / (exps.length : ℚ)) ≤ 1 := by
  have hs0 : 0 ≤ (exps.map f).sum := by
    refine List.sum_nonneg ?_
    intro x hx
    rw [List.mem_map] at hx
    obtain ⟨e, _, rfl⟩ := hx
    exact h0 e
  by_cases hE : exps = []
  · simp [hE]
  · rw [if_neg (show ¬(exps.isEmpty = true) by simp [List.isEmpty_iff, hE])]
    have hn : 0 < (exps.length : ℚ) := by
      exact_mod_cast List.length_pos.mpr hE
    have hs1 : (exps.map f).sum ≤ (exps.length : ℚ) := by
      have hb := List.sum_le_card_nsmul (exps.map f) 1 ?_
      · simpa [List.length_map, nsmul_eq_mul] using hb
      · intro x hx
        rw [List.mem_map] at hx
        obtain ⟨e, _, rfl⟩ := hx
        exact h1 e
    exact ⟨div_nonneg hs0 hn.le, by rw [div_le_one hn]; exact hs1⟩

/-- C3: the scoring algorithm (the body of `calculate_job_match_score`,
which every real call would reach only after the `NameError` described in
the results is fixed) is bounded — `0 ≤ score ≤ 100` for all inputs — and
returns exactly `0` for a candidate with no skills and no experience
entries.  As a Lean function the model is deterministic by construction:
recomputation on identical inputs yields the same value. -/
theorem calculate_job_match_score_bounds :
    (∀ (cv : CVContent) (job : Job),
        0 ≤ calculate_job_match_score cv job ∧
        calculate_job_match_score cv job ≤ 100) ∧
    (∀ job : Job,
        calculate_job_match_score { skills := [], experience := [] } job = 0) := by
  constructor
  · intro cv job
    simp only [calculate_job_match_score]
    by_cases h : ((lowerDedup job.skills_required).isEmpty = true)
    · rw [if_pos h]
      exact ⟨le_refl 0, by norm_num⟩
    · rw [if_neg h]
      have hjs : 0 < ((lowerDedup job.skills_required).length : ℚ) := by
        have h1 : lowerDedup job.skills_required ≠ [] := by
          simpa [List.isEmpty_iff] using h
        exact_mod_cast List.length_pos.mpr h1
      have hS0 : (0 : ℚ) ≤
          (((lowerDedup cv.skills).filter
            (fun s => s ∈ lowerDedup job.skills_required)).length : ℚ) /
            ((lowerDedup job.skills_required).length : ℚ) :=
        div_nonneg (by positivity) hjs.le
      have hS1 : (((lowerDedup cv.skills).filter
            (fun s => s ∈ lowerDedup job.skills_required)).length : ℚ) /
            ((lowerDedup job.skills_required).length : ℚ) ≤ 1 := by
        rw [div_le_one hjs]
        have hcard : ((lowerDedup cv.skills).filter
            (fun s => s ∈ lowerDedup job.skills_required)).length =
            ((cv.skills.map pyLower).toFinset ∩
              (job.skills_required.map pyLower).toFinset).card := by
          simpa [lowerDedup] using dedup_filter_length
            (cv.skills.map pyLower) (job.skills_required.map pyLower)
        rw [hcard]
        have hle : ((cv.skills.map pyLower).toFinset ∩
            (job.skills_required.map pyLower).toFinset).card ≤
            (lowerDedup job.skills_required).length := by
          rw [lowerDedup, ← List.card_toFinset]
          exact Finset.card_le_card Finset.inter_subset_right
        exact_mod_cast hle
      have hEb := avg_bounds cv.experience
        (fun e =>
          if (keywordSet job.title job.description).isEmpty then (0 : ℚ)
          else (((keywordSet job.title job.description).filter
              (fun w => w ∈ keywordSet e.position e.description)).length : ℚ) /
            ((keywordSet job.title job.description).length : ℚ))
        (by
          intro e
          dsimp only
          split_ifs
          · exact le_refl 0
          · positivity)
        (by
          intro e
          dsimp only
          split_ifs with hJ
          · norm_num
          · have hk : 0 < ((keywordSet job.title job.description).length : ℚ) := by
              have : keywordSet job.title job.description ≠ [] := by
                simpa [List.isEmpty_iff] using hJ
              exact_mod_cast List.length_pos.mpr this
            rw [div_le_one hk]
            exact_mod_cast List.length_filter_le _ _)
      obtain ⟨hE0, hE1⟩ := hEb
      constructor
      · nlinarith [hS0, hS1, hE0, hE1]
      · nlinarith [hS0, hS1, hE0, hE1]
  · intro job
    simp only [calculate_job_match_score]
    split_ifs <;> simp [lowerDedup]

/-! ## Source registry: C8 -/

/-- C8: (i) the registry's decision logic returns a source identifier iff
that source's enable flag is true and, for the two keyed sources, the
configured key is truthy and differs from its placeholder sentinel — the
claimed characterisation; but (ii) on the settings object that `config.py`
actually builds the five enable attributes are undeclared, so every call to
`_get_available_sources` raises `AttributeError` instead of returning a set
(modelled as `.error ()`), whatever the configured API keys are. -/
theorem get_available_sources_spec :
    (∀ (er ea et el ei : Bool) (lk ik : String),
      ("remoteok" ∈ available_sources_logic er ea et el ei lk ik ↔ er = true) ∧
      ("arbeitsagentur" ∈ available_sources_logic er ea et el ei lk ik ↔
        ea = true) ∧
      ("thelocal" ∈ available_sources_logic er ea et el ei lk ik ↔ et = true) ∧
      ("linkedin" ∈ available_sources_logic er ea et el ei lk ik ↔
        el = true ∧ lk ≠ "" ∧ lk ≠ "your_linkedin_key_here") ∧
      ("indeed" ∈ available_sources_logic er ea et el ei lk ik ↔
        ei = true ∧ ik ≠ "" ∧ ik ≠ "your_indeed_key_here")) ∧
    (∀ lk ik : String,
      get_available_sources (configSettings lk ik) = .error ()) := by
  constructor
  · intro er ea et el ei lk ik
    simp only [available_sources_logic]
    cases er <;> cases ea <;> cases et <;> cases el <;> cases ei <;>
      by_cases h1 : lk = "" <;> by_cases h2 : lk = "your_linkedin_key_here" <;>
      by_cases h3 : ik = "" <;> by_cases h4 : ik = "your_indeed_key_here" <;>
      simp_all
  · intro lk ik
    rfl

/-! ## Persistence and deduplication: C5 -/

theorem remoteokLoop_db_mono (r : JobSearchRequest) (now : Int) :
    ∀ (items : List RemoteItem) (db : List Job) (count : Nat),
      ∃ ext, (remoteokLoop r now items db count).1 = db ++ ext := by
  intro items
  induction items with
  | nil => intro db count; exact ⟨[], by simp [remoteokLoop]⟩
  | cons d rest ih =>
    intro db count
    simp only [remoteokLoop]
    split_ifs with h1 h2 h3
    · exact ih db count
    · exact ih db count
    · exact ⟨[], by simp⟩
    · cases hf : db.find? (fun j => j.external_id == remoteEid d count) with
      | some existing =>
        simp only [hf]
        exact ih db (count + 1)
      | none =>
        simp only [hf]
        obtain ⟨ext, hext⟩ :=
          ih (db ++ [buildRemoteJob now d (remoteEid d count)]) (count + 1)
        exact ⟨buildRemoteJob now d (remoteEid d count) :: ext, by
          rw [hext, List.append_assoc]; rfl⟩

theorem remoteokLoop_returned_mem_db (r : JobSearchRequest) (now : Int) :
    ∀ (items : List RemoteItem) (db : List Job) (count : Nat),
      ∀ j ∈ (remoteokLoop r now items db count).2,
        j ∈ (remoteokLoop r now items db count).1 := by
  intro items
  induction items with
  | nil => intro db count j hj; simp [remoteokLoop] at hj
  | cons d rest ih =>
    intro db count j hj
    simp only [remoteokLoop] at hj ⊢
    split_ifs at hj ⊢ with h1 h2 h3
    · exact ih db count j hj
    · exact ih db count j hj
    · simp at hj
    · cases hf : db.find? (fun j => j.external_id == remoteEid d count) with
      | some existing =>
        simp only [hf] at hj ⊢
        rcases List.mem_cons.mp hj with rfl | hj
        · obtain ⟨ext, hext⟩ := remoteokLoop_db_mono r now rest db (count + 1)
          rw [hext]
          exact List.mem_append_left ext (List.mem_of_find?_eq_some hf)
        · exact ih db (count + 1) j hj
      | none =>
        simp only [hf] at hj ⊢
        rcases List.mem_cons.mp hj with rfl | hj
        · obtain ⟨ext, hext⟩ := remoteokLoop_db_mono r now rest
            (db ++ [buildRemoteJob now d (remoteEid d count)]) (count + 1)
          rw [hext, List.append_assoc]
          exact List.mem_append_right db (by simp)
        · exact ih _ (count + 1) j hj

theorem remoteokLoop_nodup (r : JobSearchRequest) (now : Int) :
    ∀ (items : List RemoteItem) (db : List Job) (count : Nat),
      (db.map Job.external_id).Nodup →
      (((remoteokLoop r now items db count).1).map Job.external_id).Nodup := by
  intro items
  induction items with
  | nil => intro db count h; simpa [remoteokLoop] using h
  | cons d rest ih =>
    intro db count h
    simp only [remoteokLoop]
    split_ifs with h1 h2 h3
    · exact ih db count h
    · exact ih db count h
    · simpa using h
    · cases hf : db.find? (fun j => j.external_id == remoteEid d count) with
      | some existing =>
        simp only [hf]
        exact ih db (count + 1) h
      | none =>
        simp only [hf]
        refine ih _ (count + 1) ?_
        rw [List.map_append, List.nodup_append]
        refine ⟨h, by simp, ?_⟩
        intro x hx hy
        simp only [List.map_cons, List.map_nil, List.mem_singleton] at hy
        rw [List.mem_map] at hx
        obtain ⟨jx, hjx, rfl⟩ := hx
        have hne := List.find?_eq_none.mp hf jx hjx
        simp only [beq_iff_eq] at hne
        exact hne (by simpa [buildRemoteJob] using hy)

theorem remoteokLoop_idem (r : JobSearchRequest) (now : Int) :
    ∀ (items : List RemoteItem) (db : List Job) (count : Nat),
      (remoteokLoop r now items ((remoteokLoop r now items db count).1) count).1
        = (remoteokLoop r now items db count).1 := by
  intro items
  induction items with
  | nil => intro db count; simp [remoteokLoop]
  | cons d rest ih =>
    intro db count
    simp only [remoteokLoop]
    split_ifs with h1 h2 h3
    · exact ih db count
    · exact ih db count
    · simp
    · cases hf : db.find? (fun j => j.external_id == remoteEid d count) with
      | some existing =>
        simp only [hf]
        obtain ⟨ext, hext⟩ := remoteokLoop_db_mono r now rest db (count + 1)
        have hf2 : ((remoteokLoop r now rest db (count + 1)).1).find?
            (fun j => j.external_id == remoteEid d count) = some existing := by
          rw [hext, List.find?_append, hf]
          rfl
        simp only [hf2]
        exact ih db (count + 1)
      | none =>
        simp only [hf]
        obtain ⟨ext, hext⟩ := remoteokLoop_db_mono r now rest
          (db ++ [buildRemoteJob now d (remoteEid d count)]) (count + 1)
        have hf2 : ((remoteokLoop r now rest
            (db ++ [buildRemoteJob now d (remoteEid d count)]) (count + 1)).1).find?
            (fun j => j.external_id == remoteEid d count) =
            some (buildRemoteJob now d (remoteEid d count)) := by
          rw [hext, List.append_assoc, List.find?_append, hf]
          simp [List.find?_append, buildRemoteJob]
        simp only [hf2]
        exact ih _ (count + 1)

theorem search_arbeitsagentur_empty (now : Int) (items : List BAItem) :
    search_arbeitsagentur now items = [] := by
  cases items with
  | nil => rfl
  | cons d rest => rfl

/-- C5: every posting a search returns is stored (insert-if-absent by
`external_id`) before the search returns, and re-running the same search
leaves the store unchanged.  Conjuncts: (i) every job returned by the
RemoteOK adapter is in the adapter's final `jobs` table; (ii) the adapter
preserves uniqueness of `external_id` in the table; (iii) a second identical
run is a no-op on the table; (iv) the Arbeitsagentur adapter returns no
postings at all — its `JobSchema(...)` construction omits the required
fields `requirements`/`id`/`created_at` of `schemas.Job`, so validation
fails on the first item and the adapter's `except` returns `[]`; (v) the
TheLocal adapter returns `[]` by construction.  LinkedIn/Indeed have no
fetch implementation, so RemoteOK is the only source of returned postings. -/
theorem search_remoteok_persists_and_dedups :
    ∀ (r : JobSearchRequest) (now : Int) (db : List Job)
      (items : List RemoteItem),
      (∀ j ∈ (search_remoteok r now db items).2,
          j ∈ (search_remoteok r now db items).1) ∧
      ((db.map Job.external_id).Nodup →
        (((search_remoteok r now db items).1).map Job.external_id).Nodup) ∧
      ((search_remoteok r now ((search_remoteok r now db items).1) items).1 =
        (search_remoteok r now db items).1) ∧
      (∀ (now2 : Int) (bas : List BAItem),
          search_arbeitsagentur now2 bas = []) ∧
      (search_thelocal r = []) := by
  intro r now db items
  refine ⟨?_, ?_, ?_, fun now2 bas => search_arbeitsagentur_empty now2 bas, rfl⟩
  · intro j hj
    unfold search_remoteok at hj ⊢
    split_ifs at hj ⊢ with hq
    · simp at hj
    · exact remoteokLoop_returned_mem_db r now items db 0 j hj
  · intro h
    unfold search_remoteok
    split_ifs with hq
    · simpa using h
    · exact remoteokLoop_nodup r now items db 0 h
  · unfold search_remoteok
    split_ifs with hq
    · rfl
    · exact remoteokLoop_idem r now items db 0

/-- The RemoteOK feed item used by the C5 witness (no description, so the
built row needs no HTML stripping). -/
def itemW : RemoteItem := { id := some 7, position := some "x dev" }

/-- The Arbeitsagentur item used by the C5 witness. -/
def baItemW : BAItem :=
  { hashId := "h1", beruf := "Dev", arbeitgeber := "ACME", ort := "HH",
    stellenbeschreibung := "d" }

/-- Witness for C5 at a concrete input: one new feed item over an empty
table — the returned posting is stored, ids stay unique, the re-run is a
no-op, and the Arbeitsagentur adapter yields nothing. -/
theorem search_remoteok_persists_and_dedups_witness :
    ((([] : List Job).map Job.external_id).Nodup ∧
      (((search_remoteok reqQ 5 [] [itemW]).1).map Job.external_id).Nodup) ∧
    ((search_remoteok reqQ 5 ((search_remoteok reqQ 5 [] [itemW]).1)
        [itemW]).1 = (search_remoteok reqQ 5 [] [itemW]).1) ∧
    search_arbeitsagentur 5 [baItemW] = [] :=
  ⟨⟨by decide,
    (search_remoteok_persists_and_dedups reqQ 5 [] [itemW]).2.1 (by decide)⟩,
   (search_remoteok_persists_and_dedups reqQ 5 [] [itemW]).2.2.1,
   (search_remoteok_persists_and_dedups reqQ 5 [] [itemW]).2.2.2.1 5 [baItemW]⟩

end JobOctubus
